import Mathlib

/-!
Verification development for the givetray process-supervision core
(`src/main.rs`).  The Rust functions relevant to the specification's claims
are shallowly embedded as Lean definitions: pure helpers become Lean
functions, the stateful supervisor / liveness poller become explicit
state-passing functions, and effectful collaborators (the shell-word
tokenizer, the GTK password dialog, `Command::spawn`, the child's stdin
pipe, `Child::try_wait` / `Child::wait`) are parameters of the model
supplied by an environment record.  Machine behaviour that can fail
(`Vec::insert` out of bounds) is modelled with `Option`.
-/

namespace Givetray

/-- Constant `MAX_LOG_LINES` from `src/main.rs` line 25. -/
def MAX_LOG_LINES : Nat := 5000

/-- Constant `DEFAULT_PROFILE` from `src/main.rs` line 23. -/
def DEFAULT_PROFILE : String := "default"

/-- Events of the UI event bus, mirroring `enum UiEvent` in `src/main.rs`
(lines 60-64): `AppendLog(String)`, `ProcessExited(Option<i32>)`,
`SetRunning(bool)`. -/
inductive UiEvent
  | appendLog (line : String)
  | processExited (code : Option Int)
  | setRunning (flag : Bool)
deriving DecidableEq

/-- Result of one non-blocking `Child::try_wait` call: `Ok(Some(status))`
(with its exit code), `Ok(None)` (still running), or `Err(err)` (carrying the
error message used in diagnostics). -/
inductive PollResult
  | exited (code : Option Int)
  | running
  | pollErr (msg : String)
deriving DecidableEq

/-- Model of a spawned OS child process (`std::process::Child`): `polls n`
is the outcome of the n-th `try_wait` performed on it, and `waitCode` is
what `child.wait().ok().and_then(|status| status.code())` yields. -/
structure ChildModel where
  polls : Nat → PollResult
  waitCode : Option Int

/-- Observable host-level actions of the supervisor: creating an OS process
with a concrete argument vector, writing a payload to the child's stdin,
and sending SIGTERM / SIGKILL. -/
inductive HostAction
  | spawn (args : List String)
  | writeStdin (payload : String)
  | sigterm
  | sigkill
deriving DecidableEq

/-- Splits a character list on `'/'` into the raw path components. -/
def splitSlash : List Char → List (List Char)
  | [] => [[]]
  | c :: rest =>
    let r := splitSlash rest
    if c = '/' then [] :: r
    else
      match r with
      | [] => [[c]]
      | h :: t => (c :: h) :: t

/-- Model of `Path::file_name` (as used by `is_sudo_command`): the last
`/`-separated component after discarding empty and `"."` components, and
`none` when the path terminates in `".."` or has no component. -/
def path_file_name (path : String) : Option String :=
  let comps := ((splitSlash path.data).map String.mk).filter (fun c => c != "" && c != ".")
  match comps.getLast? with
  | none => none
  | some last => if last = ".." then none else some last

/-- Embedding of `is_sudo_command` (`src/main.rs` lines 1830-1837): the
first token's base name equals `"sudo"`. -/
def is_sudo_command (args : List String) : Bool :=
  match args.head? with
  | some first => path_file_name first == some "sudo"
  | none => false

/-- Predicate used by `ensure_sudo_stdin_flag`: some token is `"-S"`,
`"--stdin"` or `"--askpass"`. -/
def hasStdinFlag (args : List String) : Bool :=
  args.any (fun arg => arg == "-S" || arg == "--stdin" || arg == "--askpass")

/-- Embedding of `ensure_sudo_stdin_flag` (`src/main.rs` lines 1839-1853).
If an equivalent flag is present the vector is returned unchanged; a
one-token vector gets `"-S"` pushed at the end; otherwise `"-S"` is inserted
at index 1.  `Vec::insert(1, _)` on a zero-length vector is out of bounds
and panics, modelled as `none`. -/
def ensure_sudo_stdin_flag (args : List String) : Option (List String) :=
  if hasStdinFlag args then some args
  else
    match args with
    | [] => none
    | [only] => some [only, "-S"]
    | first :: rest => some (first :: "-S" :: rest)

/-- Embedding of `prompt_sudo_password` (`src/main.rs` lines 1855-1898),
parameterised by the dialog outcome: `accepted` is whether the response was
`ResponseType::Accept`, `text` the entry's content.  An accepted but empty
password yields `none`, exactly like cancellation. -/
def prompt_sudo_password (accepted : Bool) (text : String) : Option String :=
  if accepted then
    if text.isEmpty then none else some text
  else none

/-- Embedding of `sanitize_profile_name` (`src/main.rs` lines 1476-1492):
every character that is not ASCII-alphanumeric, `'-'` or `'_'` is replaced
by `'_'`; an empty result collapses to `DEFAULT_PROFILE`. -/
def sanitize_profile_name (profile : String) : String :=
  let cleaned := String.mk (profile.data.map (fun ch =>
    if ch.isAlphanum || ch == '-' || ch == '_' then ch else '_'))
  if cleaned.isEmpty then DEFAULT_PROFILE else cleaned

/-- Embedding of `config_path_for_profile` (`src/main.rs` lines 1401-1407).
The project config directory resolved by `ProjectDirs` is an external
input, modelled as a list of path components; the function appends
`configs/<sanitized>.toml`. -/
def config_path_for_profile (configDir : List String) (profile : String) : List String :=
  configDir ++ ["configs", sanitize_profile_name profile ++ ".toml"]

/-- Embedding of `default_log_file_path` (`src/main.rs` lines 1409-1415):
appends `logs/<sanitized>.log` to the project data directory. -/
def default_log_file_path (dataDir : List String) (profile : String) : List String :=
  dataDir ++ ["logs", sanitize_profile_name profile ++ ".log"]

/-- Signal sent to the render surface by `append_log`: a structural rebuild
carrying the full snapshot (`logs_buffer.set_text` of the joined lines), or
a single-line delta (`logs_buffer.insert` at the end). -/
inductive RenderSignal
  | rebuild (payload : List String)
  | delta (line : String)
deriving DecidableEq

/-- Embedding of the log-buffer core of `append_log` (`src/main.rs` lines
1649-1683): when the buffer already holds `MAX_LOG_LINES` lines the oldest
is popped from the front and a structural rebuild of the render surface is
signalled; otherwise the line is appended and only the delta is signalled. -/
def append_log (lines : List String) (line : String) : List String × RenderSignal :=
  if MAX_LOG_LINES ≤ lines.length then
    let updated := lines.tail ++ [line]
    (updated, RenderSignal.rebuild updated)
  else
    (lines ++ [line], RenderSignal.delta line)

/-- Folding `append_log` over a whole input sequence starting from the
empty buffer (the in-memory `log_lines` component only). -/
def run_append_log (seq : List String) : List String :=
  seq.foldl (fun acc l => (append_log acc l).1) []

/-- Supervisor state relevant to start/stop: the `child: Option<Child>`
field of `AppState`. -/
structure SupState where
  child : Option ChildModel

/-- Environment of one `start_command` call, collecting the outcomes of its
effectful collaborators: `parse` is `shell_words::split(&command)`,
`prompt` the value returned by `prompt_sudo_password()`, `spawnResult` the
outcome of `cmd.spawn()`, and `stdinPipe` describes the child's stdin pipe
(`none` when `child.stdin.take()` yields nothing, otherwise the result of
writing the password followed by a newline). -/
structure StartEnv where
  parse : Except String (List String)
  prompt : Option String
  spawnResult : Except String ChildModel
  stdinPipe : Option (Except String Unit)

/-- Spawn-and-finish tail of `start_command` (`src/main.rs` lines
1719-1766): attempt the spawn, relay the password to the child's stdin when
escalation was detected, store the child and emit `SetRunning(true)` plus
the informational log line. -/
def spawn_with_args (s : SupState) (env : StartEnv) (args : List String)
    (password : Option String) : SupState × List UiEvent × List HostAction :=
  match env.spawnResult with
  | Except.error err =>
      (s, [UiEvent.appendLog ("failed to start command: " ++ err)],
       [HostAction.spawn args])
  | Except.ok child =>
      let relay : List UiEvent × List HostAction :=
        match password with
        | none => ([], [])
        | some pw =>
          match env.stdinPipe with
          | none => ([UiEvent.appendLog "unable to access sudo stdin pipe"], [])
          | some (Except.ok _) => ([], [HostAction.writeStdin pw])
          | some (Except.error err) =>
              ([UiEvent.appendLog ("failed to send sudo password to process: " ++ err)],
               [HostAction.writeStdin pw])
      (⟨some child⟩,
       relay.1 ++ [UiEvent.setRunning true, UiEvent.appendLog "command started"],
       HostAction.spawn args :: relay.2)

/-- Embedding of `start_command` (`src/main.rs` lines 1685-1766): reject
when a child is already live; fail on empty or malformed tokenization; on a
privilege-escalation command ensure the stdin flag and gate on the password
prompt (aborting with a diagnostic when the gate yields no secret); then
spawn.  The `none` arm of `ensure_sudo_stdin_flag` is the `Vec::insert`
panic, unreachable here because the vector is non-empty. -/
def start_command (s : SupState) (env : StartEnv) :
    SupState × List UiEvent × List HostAction :=
  if s.child.isSome then
    (s, [UiEvent.appendLog "command is already running"], [])
  else
    match env.parse with
    | Except.ok [] => (s, [UiEvent.appendLog "command is empty"], [])
    | Except.error err =>
        (s, [UiEvent.appendLog ("command parse error: " ++ err)], [])
    | Except.ok (first :: rest) =>
      if is_sudo_command (first :: rest) then
        match ensure_sudo_stdin_flag (first :: rest) with
        | none => (s, [], [])
        | some args =>
          match env.prompt with
          | none => (s, [UiEvent.appendLog "sudo password prompt cancelled"], [])
          | some password => spawn_with_args s env args (some password)
      else
        spawn_with_args s env (first :: rest) none

/-- Polling loop of `terminate_child` (`src/main.rs` lines 1796-1809) under
the timing abstraction that each iteration costs exactly the 50 ms sleep:
`idx` is the index of the next `try_wait` on the child and `elapsedMs` the
value of `start.elapsed()` at that call.  Graceful exit returns without
further action; a `try_wait` error breaks out of the loop, and so does the
deadline check, both falling through to `child.kill()`. -/
def termLoop (c : ChildModel) (timeoutMs idx elapsedMs : Nat) : List HostAction :=
  match c.polls idx with
  | PollResult.exited _ => []
  | PollResult.pollErr _ => [HostAction.sigkill]
  | PollResult.running =>
    if h : timeoutMs < elapsedMs then [HostAction.sigkill]
    else termLoop c timeoutMs (idx + 1) (elapsedMs + 50)
termination_by timeoutMs + 1 - elapsedMs
decreasing_by omega

/-- Embedding of `terminate_child` (`src/main.rs` lines 1787-1810): return
immediately when the first non-blocking check already reports exit;
otherwise send SIGTERM and enter the polling loop. -/
def terminate_child (c : ChildModel) (timeoutMs : Nat) : List HostAction :=
  match c.polls 0 with
  | PollResult.exited _ => []
  | _ => HostAction.sigterm :: termLoop c timeoutMs 1 0

/-- Embedding of `stop_command` (`src/main.rs` lines 1768-1777): `take()`
the child (clearing the live reference immediately); when one was present,
run the two-second termination protocol, reap the exit code with `wait()`,
and emit exactly one `ProcessExited` event. -/
def stop_command (s : SupState) : SupState × List UiEvent × List HostAction :=
  match s.child with
  | none => (s, [], [])
  | some c =>
      (⟨none⟩, [UiEvent.processExited c.waitCode], terminate_child c 2000)

/-- Number of `ProcessExited` events in an event list. -/
def exitedCount (evs : List UiEvent) : Nat :=
  evs.countP (fun e =>
    match e with
    | UiEvent.processExited _ => true
    | _ => false)

/-- State touched by the liveness poller (`setup_process_watcher`): the
live child reference, how many `try_wait` checks were already performed on
it, and the in-memory log buffer the diagnostic line is appended to. -/
structure WatchState where
  child : Option ChildModel
  tickIdx : Nat
  logs : List String

/-- Embedding of one 500 ms tick of `setup_process_watcher` (`src/main.rs`
lines 1190-1215): with no live child the tick does nothing; otherwise one
non-blocking `try_wait` either reports exit (clear the reference and send
one `ProcessExited`), reports still-running (do nothing), or errors (append
one diagnostic log line through `append_log`, keep the reference). -/
def watcher_tick (s : WatchState) : WatchState × List UiEvent :=
  match s.child with
  | none => (s, [])
  | some c =>
    match c.polls s.tickIdx with
    | PollResult.exited code =>
        ({ s with child := none, tickIdx := s.tickIdx + 1 },
         [UiEvent.processExited code])
    | PollResult.running => ({ s with tickIdx := s.tickIdx + 1 }, [])
    | PollResult.pollErr msg =>
        ({ s with
            tickIdx := s.tickIdx + 1,
            logs := (append_log s.logs ("failed to check command status: " ++ msg)).1 },
         [])

/-- Iterate the watcher for a number of ticks, accumulating all emitted
events in order. -/
def watcher_run : WatchState → Nat → WatchState × List UiEvent
  | s, 0 => (s, [])
  | s, n + 1 =>
      let p := watcher_tick s
      let q := watcher_run p.1 n
      (q.1, p.2 ++ q.2)

/-- On a non-empty vector `ensure_sudo_stdin_flag` never panics. -/
theorem ensure_sudo_stdin_flag_isSome (first : String) (rest : List String) :
    (ensure_sudo_stdin_flag (first :: rest)).isSome = true := by
  unfold ensure_sudo_stdin_flag
  split
  · rfl
  · cases rest <;> rfl

/-- When no equivalent flag is present, the rewritten vector exists and
contains `"-S"`. -/
theorem ensure_no_flag_mem (first : String) (rest : List String)
    (h : hasStdinFlag (first :: rest) = false) :
    ∃ r, ensure_sudo_stdin_flag (first :: rest) = some r ∧ "-S" ∈ r := by
  cases rest with
  | nil => exact ⟨[first, "-S"], by simp [ensure_sudo_stdin_flag, h], by simp⟩
  | cons y t =>
      exact ⟨first :: "-S" :: y :: t, by simp [ensure_sudo_stdin_flag, h], by simp⟩

/-- A vector with `hasStdinFlag` false does not contain `"-S"`. -/
theorem not_mem_of_no_flag (args : List String) (h : hasStdinFlag args = false) :
    "-S" ∉ args := by
  intro hmem
  have htrue : hasStdinFlag args = true := by
    unfold hasStdinFlag
    rw [List.any_eq_true]
    exact ⟨"-S", hmem, by decide⟩
  rw [htrue] at h
  cases h

/-- Any spawn action recorded by `spawn_with_args` carries exactly the
argument vector it was given. -/
theorem spawn_with_args_spawn_mem (s : SupState) (env : StartEnv) (a : List String)
    (pw : Option String) (args2 : List String)
    (hmem : HostAction.spawn args2 ∈ (spawn_with_args s env a pw).2.2) : args2 = a := by
  unfold spawn_with_args at hmem
  cases hsp : env.spawnResult with
  | error e => rw [hsp] at hmem; simp at hmem; exact hmem
  | ok child =>
      rw [hsp] at hmem
      cases pw with
      | none => simp at hmem; exact hmem
      | some p =>
          cases hpipe : env.stdinPipe with
          | none => rw [hpipe] at hmem; simp at hmem; exact hmem
          | some r =>
              rw [hpipe] at hmem
              cases r <;> simp at hmem <;> exact hmem

/-- A `start_command` call on an idle supervisor whose command is an
escalation invocation and whose credential gate yields no secret aborts
with the cancellation diagnostic only. -/
theorem start_prompt_none_aborts (s : SupState) (env : StartEnv) (first : String)
    (rest : List String) (hchild : s.child = none)
    (hparse : env.parse = Except.ok (first :: rest))
    (hsudo : is_sudo_command (first :: rest) = true) (hprompt : env.prompt = none) :
    start_command s env =
      (s, [UiEvent.appendLog "sudo password prompt cancelled"], []) := by
  obtain ⟨args2, hargs2⟩ :=
    Option.isSome_iff_exists.mp (ensure_sudo_stdin_flag_isSome first rest)
  simp [start_command, hchild, hparse, hsudo, hargs2, hprompt]

/-- A command tokenizing to the empty vector makes `start_command` on an
idle supervisor fail with the emptiness diagnostic only. -/
theorem start_empty_parse (s : SupState) (env : StartEnv)
    (hchild : s.child = none) (hparse : env.parse = Except.ok []) :
    start_command s env = (s, [UiEvent.appendLog "command is empty"], []) := by
  simp [start_command, hchild, hparse]

/-- C6: whenever escalation is detected and the credential prompt gate ends
cancelled, `start` aborts before spawning: the state is unchanged (the
active process reference stays `none`), no host action — in particular no
spawn — is performed, and the only emitted event is the cancellation
diagnostic. -/
theorem credential_cancel_aborts_start (s : SupState) (env : StartEnv)
    (args : List String) (hchild : s.child = none)
    (hparse : env.parse = Except.ok args) (hsudo : is_sudo_command args = true)
    (hprompt : env.prompt = none) :
    start_command s env =
      (s, [UiEvent.appendLog "sudo password prompt cancelled"], [])
    ∧ (start_command s env).1.child = none := by
  cases args with
  | nil => simp [is_sudo_command] at hsudo
  | cons first rest =>
      have h := start_prompt_none_aborts s env first rest hchild hparse hsudo hprompt
      exact ⟨h, by rw [h]; exact hchild⟩

/-- C6 witness: concrete cancelled escalation start. -/
theorem credential_cancel_aborts_start_witness :
    start_command ⟨none⟩
        ⟨Except.ok ["sudo", "apt", "update"], none,
         Except.ok ⟨fun _ => PollResult.running, none⟩, none⟩ =
      (⟨none⟩, [UiEvent.appendLog "sudo password prompt cancelled"], [])
    ∧ (start_command ⟨none⟩
        ⟨Except.ok ["sudo", "apt", "update"], none,
         Except.ok ⟨fun _ => PollResult.running, none⟩, none⟩).1.child = none :=
  credential_cancel_aborts_start ⟨none⟩
    ⟨Except.ok ["sudo", "apt", "update"], none,
     Except.ok ⟨fun _ => PollResult.running, none⟩, none⟩
    ["sudo", "apt", "update"] rfl rfl (by decide) rfl

/-- C7: a command whose shell-word tokenization yields zero tokens makes
`start` fail: the state is unchanged, no host action (no process object) is
produced, and the single emptiness diagnostic is the only event. -/
theorem empty_command_start_noop (s : SupState) (env : StartEnv)
    (hchild : s.child = none) (hparse : env.parse = Except.ok []) :
    start_command s env = (s, [UiEvent.appendLog "command is empty"], [])
    ∧ (start_command s env).1.child = none := by
  have h := start_empty_parse s env hchild hparse
  exact ⟨h, by rw [h]; exact hchild⟩

/-- C7 witness: concrete empty tokenization. -/
theorem empty_command_start_noop_witness :
    start_command ⟨none⟩
        ⟨Except.ok [], none, Except.ok ⟨fun _ => PollResult.running, none⟩, none⟩ =
      (⟨none⟩, [UiEvent.appendLog "command is empty"], [])
    ∧ (start_command ⟨none⟩
        ⟨Except.ok [], none, Except.ok ⟨fun _ => PollResult.running, none⟩, none⟩).1.child
        = none :=
  empty_command_start_noop ⟨none⟩
    ⟨Except.ok [], none, Except.ok ⟨fun _ => PollResult.running, none⟩, none⟩ rfl rfl

/-- C9: an accepted password prompt whose entered text is empty yields no
secret, and `start` aborts exactly as on cancellation: state unchanged, no
host action, only the cancellation diagnostic. -/
theorem empty_password_aborts_start (s : SupState) (env : StartEnv)
    (args : List String) (hchild : s.child = none)
    (hparse : env.parse = Except.ok args) (hsudo : is_sudo_command args = true)
    (hprompt : env.prompt = prompt_sudo_password true "") :
    prompt_sudo_password true "" = (none : Option String)
    ∧ start_command s env =
        (s, [UiEvent.appendLog "sudo password prompt cancelled"], []) := by
  refine ⟨rfl, ?_⟩
  cases args with
  | nil => simp [is_sudo_command] at hsudo
  | cons first rest =>
      exact start_prompt_none_aborts s env first rest hchild hparse hsudo hprompt

/-- C9 witness: concrete accepted-but-empty password. -/
theorem empty_password_aborts_start_witness :
    prompt_sudo_password true "" = (none : Option String)
    ∧ start_command ⟨none⟩
        ⟨Except.ok ["sudo", "ls"], prompt_sudo_password true "",
         Except.ok ⟨fun _ => PollResult.running, none⟩, none⟩ =
        (⟨none⟩, [UiEvent.appendLog "sudo password prompt cancelled"], []) :=
  empty_password_aborts_start ⟨none⟩
    ⟨Except.ok ["sudo", "ls"], prompt_sudo_password true "",
     Except.ok ⟨fun _ => PollResult.running, none⟩, none⟩
    ["sudo", "ls"] rfl rfl (by decide) rfl

/-- C8: calling `stop` with no live process is a no-op emitting no event,
and two consecutive `stop` calls produce at most one `ProcessExited`. -/
theorem stop_idempotent :
    stop_command ⟨none⟩ = (⟨none⟩, [], [])
    ∧ ∀ s : SupState,
        (stop_command (stop_command s).1).2.1 = []
        ∧ exitedCount ((stop_command s).2.1 ++ (stop_command (stop_command s).1).2.1) ≤ 1 := by
  refine ⟨rfl, ?_⟩
  intro s
  obtain ⟨child⟩ := s
  cases child with
  | none => simp [stop_command, exitedCount]
  | some c => simp [stop_command, exitedCount]

/-- C8 witness: two stops on a concrete live supervisor. -/
theorem stop_idempotent_witness :
    (stop_command (stop_command ⟨some ⟨fun _ => PollResult.running, some 0⟩⟩).1).2.1 = []
    ∧ exitedCount ((stop_command ⟨some ⟨fun _ => PollResult.running, some 0⟩⟩).2.1 ++
        (stop_command (stop_command ⟨some ⟨fun _ => PollResult.running, some 0⟩⟩).1).2.1) ≤ 1 :=
  stop_idempotent.2 ⟨some ⟨fun _ => PollResult.running, some 0⟩⟩

/-- C4 counterexample: the input `"!"` consists entirely of invalid
characters, yet it sanitizes to `"_"`, not to the fixed default identity
`"default"` — only the empty input collapses to the default. -/
theorem sanitize_all_invalid_counterexample :
    sanitize_profile_name "!" = "_" ∧ sanitize_profile_name "!" ≠ DEFAULT_PROFILE := by
  constructor <;> decide

/-- C4 (amended): for every input the sanitized identity contains only
ASCII alphanumerics, `'-'` and `'_'`; an empty input collapses to
`"default"`, while an all-invalid input maps each character to `'_'`; and
both the config path and the log path use the same sanitized identity as
the filename stem. -/
theorem sanitize_profile_identity (profile : String) :
    (∀ ch ∈ (sanitize_profile_name profile).data,
        ch.isAlphanum = true ∨ ch = '-' ∨ ch = '_')
    ∧ (profile = "" → sanitize_profile_name profile = "default")
    ∧ (∀ configDir dataDir : List String,
        config_path_for_profile configDir profile
            = configDir ++ ["configs", sanitize_profile_name profile ++ ".toml"]
        ∧ default_log_file_path dataDir profile
            = dataDir ++ ["logs", sanitize_profile_name profile ++ ".log"]) := by
  refine ⟨?_, ?_, fun configDir dataDir => ⟨rfl, rfl⟩⟩
  · intro ch hch
    unfold sanitize_profile_name at hch
    by_cases hemp :
        (String.mk (profile.data.map (fun c =>
          if c.isAlphanum || c == '-' || c == '_' then c else '_'))).isEmpty
    · rw [if_pos hemp] at hch
      have hall : ∀ c ∈ DEFAULT_PROFILE.data, c.isAlphanum = true := by decide
      exact Or.inl (hall ch hch)
    · rw [if_neg hemp] at hch
      have hch' : ch ∈ profile.data.map (fun c =>
          if c.isAlphanum || c == '-' || c == '_' then c else '_') := hch
      rw [List.mem_map] at hch'
      obtain ⟨c, -, rfl⟩ := hch'
      by_cases hc : (c.isAlphanum || c == '-' || c == '_') = true
      · rw [if_pos hc]
        rcases Bool.or_eq_true_iff.mp hc with hc' | hc'
        · rcases Bool.or_eq_true_iff.mp hc' with hc'' | hc''
          · exact Or.inl hc''
          · exact Or.inr (Or.inl (by simpa using hc''))
        · exact Or.inr (Or.inr (by simpa using hc'))
      · rw [if_neg hc]
        exact Or.inr (Or.inr rfl)
  · intro hprofile
    subst hprofile
    rfl

/-- C4 witness: the theorem applied at the spec's example name and at the
empty name. -/
theorem sanitize_profile_identity_witness :
    ('M'.isAlphanum = true ∨ 'M' = '-' ∨ 'M' = '_')
    ∧ sanitize_profile_name "" = "default"
    ∧ (config_path_for_profile ["cfg"] "My Profile!"
          = ["cfg"] ++ ["configs", sanitize_profile_name "My Profile!" ++ ".toml"]
        ∧ default_log_file_path ["data"] "My Profile!"
          = ["data"] ++ ["logs", sanitize_profile_name "My Profile!" ++ ".log"]) :=
  ⟨(sanitize_profile_identity "My Profile!").1 'M' (by decide),
   (sanitize_profile_identity "").2.1 rfl,
   (sanitize_profile_identity "My Profile!").2.2 ["cfg"] ["data"]⟩

/-- C10 counterexample: on the empty vector the function does not return a
rewritten vector at all — `Vec::insert(1, _)` is out of bounds there and
panics, modelled as `none` — refuting the claim's unconditional
"otherwise the result is the original vector with `-S` inserted". -/
theorem ensure_flag_empty_vec_counterexample :
    ensure_sudo_stdin_flag [] = none := by decide

/-- C10 (amended): on every non-empty vector, `ensure_sudo_stdin_flag`
returns the vector unchanged when `-S`, `--stdin` or `--askpass` is already
present; otherwise it appends `-S` at the end of a one-token vector and
inserts `-S` at index 1 of a longer vector, so the original tokens keep
their relative order (the original vector is a sublist of the result).  On
the empty vector the index-1 insertion panics. -/
theorem ensure_flag_insertion_spec (args : List String) (hne : args ≠ []) :
    (hasStdinFlag args = true → ensure_sudo_stdin_flag args = some args)
    ∧ (hasStdinFlag args = false →
        (∀ x, args = [x] → ensure_sudo_stdin_flag args = some [x, "-S"])
        ∧ (∀ x y t, args = x :: y :: t →
            ensure_sudo_stdin_flag args = some (x :: "-S" :: y :: t)))
    ∧ (∃ r, ensure_sudo_stdin_flag args = some r ∧ args.Sublist r) := by
  cases args with
  | nil => exact absurd rfl hne
  | cons first rest =>
      refine ⟨?_, ?_, ?_⟩
      · intro h
        simp [ensure_sudo_stdin_flag, h]
      · intro h
        constructor
        · intro x hx
          rw [hx] at h ⊢
          simp [ensure_sudo_stdin_flag, h]
        · intro x y t hxyt
          rw [hxyt] at h ⊢
          simp [ensure_sudo_stdin_flag, h]
      · by_cases h : hasStdinFlag (first :: rest) = true
        · exact ⟨first :: rest, by simp [ensure_sudo_stdin_flag, h], List.Sublist.refl _⟩
        · rw [Bool.not_eq_true] at h
          cases rest with
          | nil =>
              refine ⟨[first, "-S"], by simp [ensure_sudo_stdin_flag, h], ?_⟩
              simp
          | cons y t =>
              refine ⟨first :: "-S" :: y :: t, by simp [ensure_sudo_stdin_flag, h], ?_⟩
              exact List.Sublist.cons₂ first (List.sublist_cons_self _ _)

/-- C10 witness: the amended statement instantiated at a concrete
two-token vector without the equivalent flag. -/
theorem ensure_flag_insertion_spec_witness :
    ensure_sudo_stdin_flag ["sudo", "ls"] = some ["sudo", "-S", "ls"] :=
  ((ensure_flag_insertion_spec ["sudo", "ls"] (by decide)).2.1 (by decide)).2
    "sudo" "ls" [] rfl

/-- C1: for every tokenized vector whose first token's base name is
`sudo`, the argument vector recorded by the spawn action contains `"-S"`
when none of the equivalent flags was present (and `"-S"` was absent from
the original), and is exactly the original vector when an equivalent flag
was already present; in particular `["sudo", "apt", "update"]` is spawned
as a vector containing `"-S"`. -/
theorem sudo_stdin_flag_for_spawn (s : SupState) (env : StartEnv) (args : List String)
    (hchild : s.child = none) (hparse : env.parse = Except.ok args)
    (hsudo : is_sudo_command args = true) :
    (hasStdinFlag args = false →
        ∀ args2, HostAction.spawn args2 ∈ (start_command s env).2.2 →
          "-S" ∈ args2 ∧ "-S" ∉ args)
    ∧ (hasStdinFlag args = true →
        ∀ args2, HostAction.spawn args2 ∈ (start_command s env).2.2 → args2 = args)
    ∧ HostAction.spawn ["sudo", "-S", "apt", "update"] ∈
        (start_command ⟨none⟩
          ⟨Except.ok ["sudo", "apt", "update"], some "secret",
           Except.ok ⟨fun _ => PollResult.running, none⟩,
           some (Except.ok ())⟩).2.2 := by
  cases args with
  | nil => simp [is_sudo_command] at hsudo
  | cons first rest =>
      refine ⟨?_, ?_, by decide⟩
      · intro hflag args2 hmem
        obtain ⟨r, hr, hrS⟩ := ensure_no_flag_mem first rest hflag
        cases hprompt : env.prompt with
        | none =>
            rw [start_prompt_none_aborts s env first rest hchild hparse hsudo hprompt]
              at hmem
            simp at hmem
        | some pw =>
            have hstart : start_command s env = spawn_with_args s env r (some pw) := by
              simp [start_command, hchild, hparse, hsudo, hr, hprompt]
            rw [hstart] at hmem
            have := spawn_with_args_spawn_mem s env r (some pw) args2 hmem
            subst this
            exact ⟨hrS, not_mem_of_no_flag _ hflag⟩
      · intro hflag args2 hmem
        have hr : ensure_sudo_stdin_flag (first :: rest) = some (first :: rest) := by
          simp [ensure_sudo_stdin_flag, hflag]
        cases hprompt : env.prompt with
        | none =>
            rw [start_prompt_none_aborts s env first rest hchild hparse hsudo hprompt]
              at hmem
            simp at hmem
        | some pw =>
            have hstart :
                start_command s env = spawn_with_args s env (first :: rest) (some pw) := by
              simp [start_command, hchild, hparse, hsudo, hr, hprompt]
            rw [hstart] at hmem
            exact spawn_with_args_spawn_mem s env (first :: rest) (some pw) args2 hmem

/-- C1 witness: the theorem at the spec's concrete escalation vector; the
vector actually fed to the spawn action contains `"-S"` while the original
did not. -/
theorem sudo_stdin_flag_for_spawn_witness :
    ("-S" ∈ ["sudo", "-S", "apt", "update"] ∧ "-S" ∉ ["sudo", "apt", "update"])
    ∧ HostAction.spawn ["sudo", "-S", "apt", "update"] ∈
        (start_command ⟨none⟩
          ⟨Except.ok ["sudo", "apt", "update"], some "secret",
           Except.ok ⟨fun _ => PollResult.running, none⟩,
           some (Except.ok ())⟩).2.2 :=
  ⟨(sudo_stdin_flag_for_spawn ⟨none⟩
      ⟨Except.ok ["sudo", "apt", "update"], some "secret",
       Except.ok ⟨fun _ => PollResult.running, none⟩, some (Except.ok ())⟩
      ["sudo", "apt", "update"] rfl rfl (by decide)).1 (by decide)
      ["sudo", "-S", "apt", "update"] (by decide),
   (sudo_stdin_flag_for_spawn ⟨none⟩
      ⟨Except.ok ["sudo", "apt", "update"], some "secret",
       Except.ok ⟨fun _ => PollResult.running, none⟩, some (Except.ok ())⟩
      ["sudo", "apt", "update"] rfl rfl (by decide)).2.2⟩

/-- Folding `append_log` from any buffer within capacity keeps exactly the
most recent `MAX_LOG_LINES` elements of the combined sequence. -/
theorem foldl_append_log (seq : List String) :
    ∀ acc : List String, acc.length ≤ MAX_LOG_LINES →
      seq.foldl (fun a l => (append_log a l).1) acc
        = (acc ++ seq).drop ((acc ++ seq).length - MAX_LOG_LINES) := by
  induction seq with
  | nil =>
      intro acc h
      rw [List.foldl_nil, List.append_nil, Nat.sub_eq_zero_of_le h, List.drop_zero]
  | cons x rest ih =>
      intro acc h
      rw [List.foldl_cons]
      by_cases hfull : MAX_LOG_LINES ≤ acc.length
      · have hlen : acc.length = MAX_LOG_LINES := le_antisymm h hfull
        obtain ⟨a0, acc', rfl⟩ : ∃ a0 acc', acc = a0 :: acc' := by
          cases acc with
          | nil => rw [List.length_nil] at hlen; cases hlen
          | cons a0 acc' => exact ⟨a0, acc', rfl⟩
        have hlen' : acc'.length + 1 = MAX_LOG_LINES := by
          rw [List.length_cons] at hlen; exact hlen
        have hfull' : MAX_LOG_LINES ≤ acc'.length + 1 := le_of_eq hlen'.symm
        have hstep : (append_log (a0 :: acc') x).1 = acc' ++ [x] := by
          simp [append_log, hfull']
        rw [hstep]
        have hlen2 : (acc' ++ [x]).length ≤ MAX_LOG_LINES := by
          rw [List.length_append, List.length_singleton]; omega
        rw [ih _ hlen2]
        have heq : (acc' ++ [x]) ++ rest = acc' ++ x :: rest := by simp
        rw [heq]
        have hd1 : (acc' ++ x :: rest).length - MAX_LOG_LINES = rest.length := by
          rw [List.length_append, List.length_cons]; omega
        have hd2 : ((a0 :: acc') ++ x :: rest).length - MAX_LOG_LINES
            = rest.length + 1 := by
          rw [List.length_append, List.length_cons, List.length_cons]; omega
        rw [hd1, hd2, List.cons_append, List.drop_succ_cons]
      · have hstep : (append_log acc x).1 = acc ++ [x] := by
          simp [append_log, hfull]
        rw [hstep]
        have hlen2 : (acc ++ [x]).length ≤ MAX_LOG_LINES := by
          rw [List.length_append, List.length_singleton]; omega
        rw [ih _ hlen2]
        have heq : (acc ++ [x]) ++ rest = acc ++ x :: rest := by simp
        rw [heq]

/-- Running the log buffer from empty keeps exactly the most recent
`MAX_LOG_LINES` lines of the appended sequence, in order. -/
theorem run_append_log_eq (seq : List String) :
    run_append_log seq = seq.drop (seq.length - MAX_LOG_LINES) := by
  have h := foldl_append_log seq [] (by rw [List.length_nil]; exact Nat.zero_le _)
  rw [List.nil_append] at h
  exact h

/-- C2: the log buffer never exceeds 5000 lines; once more than 5000 lines
have been appended it holds exactly the most recent 5000 in original
relative order (oldest evicted first); a structural rebuild is signalled on
an append exactly when an eviction occurred, and otherwise only the single
appended line is signalled as a delta. -/
theorem log_buffer_capacity_fifo :
    (∀ seq : List String, (run_append_log seq).length ≤ 5000)
    ∧ (∀ seq : List String, 5000 < seq.length →
        run_append_log seq = seq.drop (seq.length - 5000)
        ∧ (run_append_log seq).length = 5000)
    ∧ (∀ (lines : List String) (l : String),
        ((append_log lines l).2 = RenderSignal.rebuild (append_log lines l).1
            ↔ 5000 ≤ lines.length)
        ∧ (lines.length < 5000 →
            append_log lines l = (lines ++ [l], RenderSignal.delta l))) := by
  have h5 : MAX_LOG_LINES = 5000 := rfl
  refine ⟨?_, ?_, ?_⟩
  · intro seq
    rw [run_append_log_eq, List.length_drop, h5]
    omega
  · intro seq hgt
    constructor
    · rw [run_append_log_eq, h5]
    · rw [run_append_log_eq, List.length_drop, h5]
      omega
  · intro lines l
    constructor
    · by_cases hcond : MAX_LOG_LINES ≤ lines.length
      · have hc5 : 5000 ≤ lines.length := h5 ▸ hcond
        simp [append_log, hcond, hc5]
      · have hc5 : ¬ 5000 ≤ lines.length := h5 ▸ hcond
        simp [append_log, hcond, hc5]
    · intro hlt
      have hcond : ¬ MAX_LOG_LINES ≤ lines.length := by rw [h5]; omega
      simp [append_log, hcond]

/-- C2 witness: a 5001-line sequence retains the most recent 5000 with
length exactly 5000, and an append below capacity signals only the delta. -/
theorem log_buffer_capacity_fifo_witness :
    (run_append_log (List.replicate 5001 "x")
        = (List.replicate 5001 "x").drop ((List.replicate 5001 "x").length - 5000)
      ∧ (run_append_log (List.replicate 5001 "x")).length = 5000)
    ∧ append_log ["a"] "b" = (["a"] ++ ["b"], RenderSignal.delta "b") :=
  ⟨log_buffer_capacity_fifo.2.1 (List.replicate 5001 "x")
      (by rw [List.length_replicate]; omega),
   (log_buffer_capacity_fifo.2.2 ["a"] "b").2 (by decide)⟩

/-- The polling loop returns without further action when the next check
reports the process exited. -/
theorem termLoop_exited (c : ChildModel) (T idx elapsed : Nat) (code : Option Int)
    (h : c.polls idx = PollResult.exited code) : termLoop c T idx elapsed = [] := by
  unfold termLoop
  rw [h]

/-- When the process never exits, the loop runs out its deadline and the
protocol force-kills. -/
theorem termLoop_kill_of_all_running (c : ChildModel) (T : Nat)
    (h : ∀ i, c.polls i = PollResult.running) :
    ∀ fuel idx elapsed, T + 1 - elapsed ≤ 50 * fuel →
      termLoop c T idx elapsed = [HostAction.sigkill] := by
  intro fuel
  induction fuel with
  | zero =>
      intro idx elapsed hle
      unfold termLoop
      rw [h idx]
      have hT : T < elapsed := by omega
      simp [hT]
  | succ n ihn =>
      intro idx elapsed hle
      unfold termLoop
      rw [h idx]
      by_cases hT : T < elapsed
      · simp [hT]
      · simp only [hT, dite_false]
        exact ihn (idx + 1) (elapsed + 50) (by omega)

/-- When the process is reported exited at a poll that still falls within
the deadline (all earlier polls reporting it running), the loop returns
without force-killing. -/
theorem termLoop_graceful_aux (c : ChildModel) (T : Nat) (code : Option Int) :
    ∀ d idx elapsed,
      (∀ i, idx ≤ i → i < idx + d → c.polls i = PollResult.running) →
      c.polls (idx + d) = PollResult.exited code →
      elapsed + 50 * d ≤ T + 50 →
      termLoop c T idx elapsed = [] := by
  intro d
  induction d with
  | zero =>
      intro idx elapsed hrun hex hle
      exact termLoop_exited c T idx elapsed code (by simpa using hex)
  | succ n ihn =>
      intro idx elapsed hrun hex hle
      have hidx : c.polls idx = PollResult.running :=
        hrun idx (le_refl idx) (by omega)
      unfold termLoop
      rw [hidx]
      have hT : ¬ T < elapsed := by omega
      simp only [hT, dite_false]
      apply ihn (idx + 1) (elapsed + 50)
      · intro i h1 h2
        exact hrun i (by omega) (by omega)
      · have harith : idx + 1 + n = idx + (n + 1) := by omega
        rw [harith]
        exact hex
      · omega

/-- C3: stopping a live process clears the active reference immediately (a
subsequent `start` behaves exactly as on an idle supervisor), emits exactly
one `ProcessExited` carrying the OS-reported code (or `none`), and the
termination protocol does nothing when the first check already reports
exit, otherwise leads with SIGTERM, force-kills with SIGKILL when the
process never exits during the two-second grace window, and skips the kill
when the process is observed exited at a poll within the window (50 ms
poll cadence, so poll `j` happens at `50 * (j - 1)` ms, up to 2050 ms). -/
theorem stop_protocol_spec (s : SupState) (c : ChildModel) (h : s.child = some c) :
    (stop_command s).1.child = none
    ∧ (∀ env, start_command (stop_command s).1 env = start_command ⟨none⟩ env)
    ∧ (stop_command s).2.1 = [UiEvent.processExited c.waitCode]
    ∧ (∀ code, c.polls 0 = PollResult.exited code → (stop_command s).2.2 = [])
    ∧ ((∀ code, c.polls 0 ≠ PollResult.exited code) →
        (stop_command s).2.2.head? = some HostAction.sigterm)
    ∧ ((∀ i, c.polls i = PollResult.running) →
        (stop_command s).2.2 = [HostAction.sigterm, HostAction.sigkill])
    ∧ (∀ j code, 1 ≤ j → 50 * (j - 1) ≤ 2050 →
        c.polls 0 = PollResult.running →
        (∀ i, 1 ≤ i → i < j → c.polls i = PollResult.running) →
        c.polls j = PollResult.exited code →
        (stop_command s).2.2 = [HostAction.sigterm]) := by
  obtain ⟨child⟩ := s
  dsimp only at h
  subst h
  refine ⟨rfl, fun env => rfl, rfl, ?_, ?_, ?_, ?_⟩
  · intro code hc
    show terminate_child c 2000 = []
    unfold terminate_child
    rw [hc]
  · intro hne
    show (terminate_child c 2000).head? = some HostAction.sigterm
    unfold terminate_child
    cases hp : c.polls 0 with
    | exited code => exact absurd hp (hne code)
    | running => rfl
    | pollErr msg => rfl
  · intro hall
    show terminate_child c 2000 = [HostAction.sigterm, HostAction.sigkill]
    unfold terminate_child
    rw [hall 0]
    rw [termLoop_kill_of_all_running c 2000 hall 41 1 0 (by omega)]
  · intro j code hj1 hj2 h0 hrun hex
    show terminate_child c 2000 = [HostAction.sigterm]
    unfold terminate_child
    rw [h0]
    have hterm : termLoop c 2000 1 0 = [] := by
      apply termLoop_graceful_aux c 2000 code (j - 1) 1 0
      · intro i hi1 hi2
        exact hrun i hi1 (by omega)
      · have harith : 1 + (j - 1) = j := by omega
        rw [harith]
        exact hex
      · omega
    rw [hterm]

/-- C3 witness: stopping a live, never-exiting process with exit code 0. -/
theorem stop_protocol_spec_witness :
    (stop_command ⟨some ⟨fun _ => PollResult.running, some 0⟩⟩).1.child = none
    ∧ (stop_command ⟨some ⟨fun _ => PollResult.running, some 0⟩⟩).2.1
        = [UiEvent.processExited (some 0)]
    ∧ (stop_command ⟨some ⟨fun _ => PollResult.running, some 0⟩⟩).2.2
        = [HostAction.sigterm, HostAction.sigkill] :=
  ⟨(stop_protocol_spec ⟨some ⟨fun _ => PollResult.running, some 0⟩⟩
      ⟨fun _ => PollResult.running, some 0⟩ rfl).1,
   (stop_protocol_spec ⟨some ⟨fun _ => PollResult.running, some 0⟩⟩
      ⟨fun _ => PollResult.running, some 0⟩ rfl).2.2.1,
   (stop_protocol_spec ⟨some ⟨fun _ => PollResult.running, some 0⟩⟩
      ⟨fun _ => PollResult.running, some 0⟩ rfl).2.2.2.2.2.1 (fun _ => rfl)⟩

/-- With no live child reference, any number of watcher ticks changes
nothing and emits nothing. -/
theorem watcher_run_none (s : WatchState) (h : s.child = none) :
    ∀ n, watcher_run s n = (s, []) := by
  have ht : watcher_tick s = (s, []) := by
    unfold watcher_tick
    rw [h]
  intro n
  induction n with
  | zero => rfl
  | succ m ihm =>
      show watcher_run s (m + 1) = (s, [])
      unfold watcher_run
      rw [ht]
      dsimp only
      rw [ihm]
      rfl

/-- C5: on a poller tick with a live child, an exit report clears the live
reference and synthesizes exactly one `ProcessExited` with the observed
code, and no later tick ever emits another event for it; a failing check
appends exactly one diagnostic line through the log buffer, emits no event,
leaves the live reference in place and advances to the next poll (so the
check is retried on the next tick). -/
theorem watcher_tick_spec (s : WatchState) (c : ChildModel) (h : s.child = some c) :
    (∀ code, c.polls s.tickIdx = PollResult.exited code →
        (watcher_tick s).2 = [UiEvent.processExited code]
        ∧ (watcher_tick s).1.child = none
        ∧ ∀ n, (watcher_run (watcher_tick s).1 n).2 = [])
    ∧ (∀ msg, c.polls s.tickIdx = PollResult.pollErr msg →
        (watcher_tick s).2 = []
        ∧ (watcher_tick s).1.child = some c
        ∧ (watcher_tick s).1.logs
            = (append_log s.logs ("failed to check command status: " ++ msg)).1
        ∧ (watcher_tick s).1.tickIdx = s.tickIdx + 1) := by
  obtain ⟨child, tickIdx, logs⟩ := s
  dsimp only at h
  subst h
  constructor
  · intro code hc
    have ht : watcher_tick ⟨some c, tickIdx, logs⟩ =
        (⟨none, tickIdx + 1, logs⟩, [UiEvent.processExited code]) := by
      unfold watcher_tick
      dsimp only
      rw [hc]
    refine ⟨by rw [ht], by rw [ht], ?_⟩
    intro n
    rw [ht]
    rw [watcher_run_none ⟨none, tickIdx + 1, logs⟩ rfl n]
  · intro msg hm
    have ht : watcher_tick ⟨some c, tickIdx, logs⟩ =
        (⟨some c, tickIdx + 1,
          (append_log logs ("failed to check command status: " ++ msg)).1⟩, []) := by
      unfold watcher_tick
      dsimp only
      rw [hm]
    exact ⟨by rw [ht], by rw [ht], by rw [ht], by rw [ht]⟩

/-- C5 witness: a silently exited child observed by the poller at its
first tick; three further ticks emit nothing. -/
theorem watcher_tick_spec_witness :
    (watcher_tick ⟨some ⟨fun _ => PollResult.exited (some 0), some 0⟩, 0, []⟩).2
        = [UiEvent.processExited (some 0)]
    ∧ (watcher_tick ⟨some ⟨fun _ => PollResult.exited (some 0), some 0⟩, 0, []⟩).1.child
        = none
    ∧ (watcher_run
        (watcher_tick ⟨some ⟨fun _ => PollResult.exited (some 0), some 0⟩, 0, []⟩).1 3).2
        = [] :=
  ⟨((watcher_tick_spec ⟨some ⟨fun _ => PollResult.exited (some 0), some 0⟩, 0, []⟩
      ⟨fun _ => PollResult.exited (some 0), some 0⟩ rfl).1 (some 0) rfl).1,
   ((watcher_tick_spec ⟨some ⟨fun _ => PollResult.exited (some 0), some 0⟩, 0, []⟩
      ⟨fun _ => PollResult.exited (some 0), some 0⟩ rfl).1 (some 0) rfl).2.1,
   ((watcher_tick_spec ⟨some ⟨fun _ => PollResult.exited (some 0), some 0⟩, 0, []⟩
      ⟨fun _ => PollResult.exited (some 0), some 0⟩ rfl).1 (some 0) rfl).2.2 3⟩

end Givetray
